import Mathlib

/-!
Verification of the lib60870-C IEC 60870-5-104 slave (server) design.

The repository ships the public API header `iec60870_slave.h`; the
behaviour of the protocol engine is given by the design specification
(frame codec, sequence window, priority queues, redundancy coordinator,
handler dispatch). Each behavioural definition below is a shallow
embedding of that specification, and the theorems settle the spec's
testable properties against it.
-/

namespace Lib60870

/-- Sequence counters of IEC 60870-5-104 are 15-bit values: they wrap modulo 32768. -/
def seqModulus : Nat := 32768

/-- Per-connection sequence window state: send counter V(S), receive counter
V(R), acknowledged-send counter V(A), and the configured maximum number k of
unacknowledged I-frames in flight. -/
structure SeqWindow where
  vS : Nat
  vR : Nat
  vA : Nat
  k : Nat
deriving DecidableEq, Repr

/-- Number of sent-but-unacknowledged I-frames: (V(S) - V(A)) mod 32768,
computed in Nat via the usual add-modulus trick. -/
def SeqWindow.unackedCount (s : SeqWindow) : Nat :=
  (s.vS + seqModulus - s.vA) % seqModulus

/-- Result of an onSend attempt: either the assigned sequence number together
with the updated window, or WindowFull with the window untouched. -/
inductive SendResult where
  | ok (seqNumber : Nat) (window : SeqWindow)
  | windowFull (window : SeqWindow)
deriving DecidableEq, Repr

/-- The window contained in either outcome. -/
def SendResult.window : SendResult → SeqWindow
  | .ok _ w => w
  | .windowFull w => w

/-- Whether the outcome is WindowFull. -/
def SendResult.isWindowFull : SendResult → Bool
  | .ok _ _ => false
  | .windowFull _ => true

/-- Modelled from the spec: `onSend() -> sequenceNumber` assigns the current
V(S) as the frame's sequence number and increments V(S) modulo 32768; it
fails with `WindowFull` when the unacknowledged count would exceed k (the
implementation of the sequence window is not part of the shipped header). -/
def SeqWindow.onSend (s : SeqWindow) : SendResult :=
  if s.k < s.unackedCount + 1 then
    .windowFull s
  else
    .ok s.vS { s with vS := (s.vS + 1) % seqModulus }

/-- Protocol desynchronization errors raised by the receive path. -/
inductive RecvError where
  | sequenceError
  | ackError
deriving DecidableEq, Repr

/-- A received acknowledgment number is admissible when it is a 15-bit value
lying within the modular interval [V(A), V(S)]. -/
def SeqWindow.ackOk (s : SeqWindow) (peerAckSeq : Nat) : Prop :=
  peerAckSeq < seqModulus ∧
    (peerAckSeq + seqModulus - s.vA) % seqModulus ≤ (s.vS + seqModulus - s.vA) % seqModulus

instance (s : SeqWindow) (peerAckSeq : Nat) : Decidable (s.ackOk peerAckSeq) := by
  unfold SeqWindow.ackOk; infer_instance

/-- Per-client connection state relevant to the sequence window: the window,
whether the connection is still open, and the list of ASDUs that were handed
to the application dispatch (newest last; ASDUs are identified by a number). -/
structure Connection where
  window : SeqWindow
  isOpen : Bool
  dispatched : List Nat
deriving DecidableEq, Repr

/-- Modelled from the spec: `onReceiveIFrame(peerSeq, peerAckSeq)` validates
peerSeq == local V(R) exactly (fails `SequenceError` otherwise, fatal to the
connection, nothing dispatched), advances V(R) modulo 32768, validates
peerAckSeq within [V(A), V(S)] (fails `AckError` otherwise, also fatal) and
advances V(A) to peerAckSeq; on success the carried ASDU is handed to the
application dispatch. -/
def Connection.onReceiveIFrame (c : Connection) (peerSeq peerAckSeq : Nat) (asdu : Nat) :
    Option RecvError × Connection :=
  if peerSeq ≠ c.window.vR then
    (some .sequenceError, { c with isOpen := false })
  else if c.window.ackOk peerAckSeq then
    (none,
      { c with
        window := { c.window with vR := (c.window.vR + 1) % seqModulus, vA := peerAckSeq },
        dispatched := c.dispatched ++ [asdu] })
  else
    (some .ackError, { c with isOpen := false })

/-- Modelled from the spec: `onReceiveSFrame(peerAckSeq)` performs only the
acknowledgment-advance step, with the same admissibility check. -/
def Connection.onReceiveSFrame (c : Connection) (peerAckSeq : Nat) :
    Option RecvError × Connection :=
  if c.window.ackOk peerAckSeq then
    (none, { c with window := { c.window with vA := peerAckSeq } })
  else
    (some .ackError, { c with isOpen := false })

/-- One operation on a connection's sequence window. -/
inductive WindowOp where
  | send
  | recvI (peerSeq peerAckSeq asdu : Nat)
  | recvS (peerAckSeq : Nat)
deriving DecidableEq, Repr

/-- Apply one window operation to a connection. -/
def Connection.step (c : Connection) : WindowOp → Connection
  | .send =>
    match c.window.onSend with
    | .ok _ w => { c with window := w }
    | .windowFull _ => c
  | .recvI ps pa a => (c.onReceiveIFrame ps pa a).2
  | .recvS pa => (c.onReceiveSFrame pa).2

/-- Run a list of window operations in order. -/
def Connection.run (c : Connection) (ops : List WindowOp) : Connection :=
  ops.foldl Connection.step c

/-- Well-formedness of a sequence window: all three counters are reduced
modulo 32768 and the unacknowledged count does not exceed k. -/
def SeqWindow.WF (s : SeqWindow) : Prop :=
  s.vS < seqModulus ∧ s.vR < seqModulus ∧ s.vA < seqModulus ∧ s.unackedCount ≤ s.k

instance (s : SeqWindow) : Decidable s.WF := by
  unfold SeqWindow.WF; infer_instance

/-! ### Frame codec -/

/-- Function code of an unnumbered-control (U) frame: STARTDT, STOPDT and
TESTFR requests (activations) and confirmations. -/
inductive UFunction where
  | startdtAct
  | startdtCon
  | stopdtAct
  | stopdtCon
  | testfrAct
  | testfrCon
deriving DecidableEq, Repr

/-- First control octet of a U-frame: the function bit ored with the
`xxxxxx11` U-frame discriminator (values per IEC 60870-5-104). -/
def UFunction.toByte : UFunction → Nat
  | .startdtAct => 0x07
  | .startdtCon => 0x0B
  | .stopdtAct => 0x13
  | .stopdtCon => 0x23
  | .testfrAct => 0x43
  | .testfrCon => 0x83

/-- Inverse of `UFunction.toByte` on the six defined control octets. -/
def uFunctionOfByte (b : Nat) : Option UFunction :=
  if b = 0x07 then some .startdtAct
  else if b = 0x0B then some .startdtCon
  else if b = 0x13 then some .stopdtAct
  else if b = 0x23 then some .stopdtCon
  else if b = 0x43 then some .testfrAct
  else if b = 0x83 then some .testfrCon
  else none

/-- A link-layer frame: I-frame (one ASDU, both sequence numbers), S-frame
(acknowledgment only) or U-frame (control function). The ASDU payload is kept
as its raw byte list. -/
inductive Frame where
  | iFrame (sendSeq recvSeq : Nat) (asdu : List Nat)
  | sFrame (recvSeq : Nat)
  | uFrame (fn : UFunction)
deriving DecidableEq, Repr

/-- Maximum allowed value of the APDU length octet (IEC 60870-5-104: 253). -/
def maxApduLength : Nat := 253

/-- Modelled from the spec: `encode(Frame) -> bytes`. Start byte 0x68, length
octet counting the remaining octets (4 control octets plus the ASDU), control
octets carrying the 15-bit sequence numbers shifted left one bit (low byte
first), then the payload. The encoder itself is not part of the shipped
header. -/
def Frame.encode : Frame → List Nat
  | .iFrame s r a =>
    0x68 :: (4 + a.length) :: (2 * s % 256) :: (s / 128) :: (2 * r % 256) :: (r / 128) :: a
  | .sFrame r => [0x68, 4, 0x01, 0x00, 2 * r % 256, r / 128]
  | .uFrame fn => [0x68, 4, fn.toByte, 0x00, 0x00, 0x00]

/-- Decoder outcome: a complete frame, a request for more bytes (buffer does
not yet hold the declared length), or rejection of a malformed buffer. -/
inductive DecodeResult where
  | ok (f : Frame)
  | needMoreBytes
  | malformed
deriving DecidableEq, Repr

/-- Modelled from the spec: `decode(bytes) -> Frame | NeedMoreBytes |
Malformed`. The codec classifies a frame only once the declared length is
fully buffered; a length octet exceeding the maximum APDU size, a wrong start
byte, a too-short declared length, or an undefined control pattern is
`Malformed`. The frame kind is taken from the low bits of the first control
octet: `xxxxxxx0` I-frame, `xxxxxx01` S-frame, `xxxxxx11` U-frame. -/
def decode : List Nat → DecodeResult
  | [] => .needMoreBytes
  | start :: rest =>
    if start ≠ 0x68 then .malformed
    else
      match rest with
      | [] => .needMoreBytes
      | len :: rest2 =>
        if maxApduLength < len then .malformed
        else if len < 4 then .malformed
        else if rest2.length < len then .needMoreBytes
        else
          match rest2 with
          | c0 :: c1 :: c2 :: c3 :: tail =>
            if c0 % 2 = 0 then
              .ok (.iFrame (c0 / 2 + 128 * c1) (c2 / 2 + 128 * c3) (tail.take (len - 4)))
            else if c0 % 4 = 1 then
              if len ≠ 4 then .malformed
              else .ok (.sFrame (c2 / 2 + 128 * c3))
            else
              if len ≠ 4 then .malformed
              else
                match uFunctionOfByte c0 with
                | some fn => .ok (.uFrame fn)
                | none => .malformed
          | _ => .needMoreBytes

/-- A frame is valid when its sequence numbers are 15-bit values and its
payload fits under the maximum APDU length. -/
def Frame.Valid : Frame → Prop
  | .iFrame s r a => s < seqModulus ∧ r < seqModulus ∧ 4 + a.length ≤ maxApduLength
  | .sFrame r => r < seqModulus
  | .uFrame _ => True

instance (f : Frame) : Decidable f.Valid := by
  cases f <;> (unfold Frame.Valid; infer_instance)

/-! ### Priority queues -/

/-- A bounded FIFO of pending outbound ASDUs (identified by number), oldest
first, with a fixed capacity. -/
structure PrioQueue where
  capacity : Nat
  entries : List Nat
deriving DecidableEq, Repr

/-- Modelled from the spec: `enqueue` appends to the queue; when the queue is
at capacity the policy is to evict the oldest entry in that queue before
inserting the new one (bounded, best-effort delivery). -/
def PrioQueue.enqueue (q : PrioQueue) (a : Nat) : PrioQueue :=
  if q.entries.length < q.capacity then { q with entries := q.entries ++ [a] }
  else { q with entries := q.entries.tail ++ [a] }

/-- Enqueue a list of ASDUs in order. -/
def PrioQueue.enqueueAll (q : PrioQueue) (xs : List Nat) : PrioQueue :=
  xs.foldl PrioQueue.enqueue q

/-- Modelled from the spec: `dequeueNext() -> ASDU | Empty` removes and
returns the oldest entry. -/
def PrioQueue.dequeueNext : PrioQueue → Option (Nat × PrioQueue)
  | ⟨_, []⟩ => none
  | ⟨cap, x :: xs⟩ => some (x, ⟨cap, xs⟩)

/-- Repeatedly dequeue until the queue is empty, collecting the ASDUs in the
order they come out. -/
def PrioQueue.drainAll : PrioQueue → List Nat
  | ⟨_, []⟩ => []
  | ⟨cap, x :: xs⟩ => x :: PrioQueue.drainAll ⟨cap, xs⟩

/-! ### Redundancy coordinator (SINGLE_REDUNDANCY_GROUP mode) -/

/-- Server redundancy mode, as declared in `iec60870_slave.h`. -/
inductive ServerMode where
  | SINGLE_REDUNDANCY_GROUP
  | CONNECTION_IS_REDUNDANCY_GROUP
deriving DecidableEq, Repr

/-- One registered connection as seen by the redundancy coordinator: its
identifier and whether it is the active connection (permitted to drain the
shared queues). -/
structure ConnEntry where
  connId : Nat
  isActive : Bool
deriving DecidableEq, Repr

/-- Coordinator state in SINGLE_REDUNDANCY_GROUP mode: the registered
connections in registration order (oldest first). -/
structure Coordinator where
  conns : List ConnEntry
deriving DecidableEq, Repr

/-- Number of connections currently marked active. -/
def Coordinator.activeCount (c : Coordinator) : Nat :=
  (c.conns.filter (fun e => e.isActive)).length

/-- Whether some registered connection is active. -/
def Coordinator.hasActive (c : Coordinator) : Bool :=
  c.conns.any (fun e => e.isActive)

/-- Modelled from the spec: on admission the new connection is marked passive
unless no other connection is currently active (first-active-wins); the
coordinator logic is not part of the shipped header. -/
def Coordinator.registerConn (c : Coordinator) (i : Nat) : Coordinator :=
  ⟨c.conns ++ [⟨i, !c.hasActive⟩]⟩

/-- Modelled from the spec: when a connection closes it is deregistered; when
the active connection closes, the coordinator elects a new active connection:
the oldest remaining registered connection. -/
def Coordinator.closeConn (c : Coordinator) (i : Nat) : Coordinator :=
  if c.conns.any (fun e => e.connId == i && e.isActive) then
    match c.conns.filter (fun e => e.connId != i) with
    | [] => ⟨[]⟩
    | x :: xs => ⟨⟨x.connId, true⟩ :: xs⟩
  else ⟨c.conns.filter (fun e => e.connId != i)⟩

/-- Coordinator states reachable from the empty registry by admissions and
closures. -/
inductive Coordinator.Reachable : Coordinator → Prop where
  | init : Coordinator.Reachable ⟨[]⟩
  | register (c : Coordinator) (i : Nat) :
      Coordinator.Reachable c → Coordinator.Reachable (c.registerConn i)
  | close (c : Coordinator) (i : Nat) :
      Coordinator.Reachable c → Coordinator.Reachable (c.closeConn i)

/-! ### ASDU dispatch -/

/-- Handler categories of the slave, one per registrable callback of
`iec60870_slave.h` (besides the default ASDU handler). -/
inductive HandlerCategory where
  | interrogation
  | counterInterrogation
  | readRequest
  | clockSync
  | resetProcess
  | delayAcquisition
deriving DecidableEq, Repr

/-- Registered application handlers, identified by number; `none` means no
handler was registered for that category. `asduHandler` is the default
handler for ASDUs not handled by the others. -/
structure HandlerRegistry where
  interrogationHandler : Option Nat
  counterInterrogationHandler : Option Nat
  readHandler : Option Nat
  clockSyncHandler : Option Nat
  resetProcessHandler : Option Nat
  delayAcquisitionHandler : Option Nat
  asduHandler : Option Nat
deriving DecidableEq, Repr

/-- The handler registered for a category, if any. -/
def HandlerRegistry.handlerFor (r : HandlerRegistry) : HandlerCategory → Option Nat
  | .interrogation => r.interrogationHandler
  | .counterInterrogation => r.counterInterrogationHandler
  | .readRequest => r.readHandler
  | .clockSync => r.clockSyncHandler
  | .resetProcess => r.resetProcessHandler
  | .delayAcquisition => r.delayAcquisitionHandler

/-- Classification of an inbound ASDU by its type identifier into a handler
category: C_IC_NA_1 (100), C_CI_NA_1 (101), C_RD_NA_1 (102), C_CS_NA_1
(103), C_RP_NA_1 (105), C_CD_NA_1 (106); everything else is unclassified. -/
def classify (typeId : Nat) : Option HandlerCategory :=
  if typeId = 100 then some .interrogation
  else if typeId = 101 then some .counterInterrogation
  else if typeId = 102 then some .readRequest
  else if typeId = 103 then some .clockSync
  else if typeId = 105 then some .resetProcess
  else if typeId = 106 then some .delayAcquisition
  else none

/-- Where a dispatched ASDU ended up: at the category's registered handler,
at the default ASDU handler, or silently acknowledged as unprocessed. -/
inductive DispatchResult where
  | handledBy (cat : HandlerCategory) (h : Nat)
  | handledByDefault (h : Nat)
  | unprocessed
deriving DecidableEq, Repr

/-- Modelled from the spec: an inbound ASDU is classified by type identifier
and routed to the single registered handler for that category, if any; an
unhandled category with no registered handler is reported to the default ASDU
handler, and if that too is absent, the request is silently acknowledged as
unprocessed (dispatch is total: no crash, no exception). -/
def dispatch (r : HandlerRegistry) (typeId : Nat) : DispatchResult :=
  match classify typeId with
  | some cat =>
    match r.handlerFor cat with
    | some h => .handledBy cat h
    | none =>
      match r.asduHandler with
      | some h => .handledByDefault h
      | none => .unprocessed
  | none =>
    match r.asduHandler with
    | some h => .handledByDefault h
    | none => .unprocessed

/-! ### MasterConnection send path -/

/-- The per-connection state relevant to `MasterConnection_sendASDU`: whether
the connection is active and its bounded outbound queue. -/
structure MCState where
  isActive : Bool
  sendCapacity : Nat
  sendQueue : List Nat
deriving DecidableEq, Repr

/-- Outcome of `MasterConnection_sendASDU`: the boolean result, the updated
connection state, and whether the connection took over (released) the ASDU. -/
structure SendOutcome where
  success : Bool
  conn : MCState
  asduReleased : Bool
deriving DecidableEq, Repr

/-- Modelled from the spec and the header contract of
`MasterConnection_sendASDU`: returns true if the message was sent (queued),
false otherwise (queue full or connection not active); in every case the
ASDU is released by the call, so the caller must not destroy or reuse it. -/
def MasterConnection_sendASDU (c : MCState) (asdu : Nat) : SendOutcome :=
  if c.isActive = false then
    { success := false, conn := c, asduReleased := true }
  else if c.sendCapacity ≤ c.sendQueue.length then
    { success := false, conn := c, asduReleased := true }
  else
    { success := true, conn := { c with sendQueue := c.sendQueue ++ [asdu] },
      asduReleased := true }

/-! ### Server connection limit -/

/-- The static compile-time maximum of client connections
(CONFIG_CS104_MAX_CLIENT_CONNECTIONS). -/
def CONFIG_CS104_MAX_CLIENT_CONNECTIONS : Nat := 10

/-- Server state relevant to the open-connection limit: whether the accept
loop runs, the configured maximum and the current number of open client
connections. -/
structure ServerState where
  running : Bool
  maxOpenConnections : Nat
  openConnections : Nat
deriving DecidableEq, Repr

/-- Freshly created server: not running, no connections, limit at the static
maximum. -/
def initServer : ServerState :=
  ⟨false, CONFIG_CS104_MAX_CLIENT_CONNECTIONS, 0⟩

/-- Events that affect the open-connection count and limit. -/
inductive ServerEvent where
  | setMaxOpenConnections (m : Nat)
  | start
  | stop
  | accept
  | disconnect
deriving DecidableEq, Repr

/-- Modelled from the spec and the header note of
`T104Slave_setMaxOpenConnections` ("the number cannot be larger than the
static maximum"): the configured limit is capped at the static maximum.
Configuration is settable before `start()` and immutable while running; an
accepted socket is rejected when the open-connection count is at the
configured maximum; `Slave_stop` closes all connections. -/
def serverStep (s : ServerState) : ServerEvent → ServerState
  | .setMaxOpenConnections m =>
    if s.running then s
    else { s with maxOpenConnections := min m CONFIG_CS104_MAX_CLIENT_CONNECTIONS }
  | .start => { s with running := true }
  | .stop => { s with running := false, openConnections := 0 }
  | .accept =>
    if s.running ∧ s.openConnections < s.maxOpenConnections then
      { s with openConnections := s.openConnections + 1 }
    else s
  | .disconnect => { s with openConnections := s.openConnections - 1 }

/-- Run a list of server events from a state. -/
def serverRun (s : ServerState) (evs : List ServerEvent) : ServerState :=
  evs.foldl serverStep s

/-- The number of connected clients, per `T104Slave_getOpenConnections`. -/
def T104Slave_getOpenConnections (s : ServerState) : Nat :=
  s.openConnections

/-! ### Slave creation with default parameters -/

/-- Connection parameters of the protocol: k (max unacknowledged I-frames),
w (ack-trigger count), the four timeouts t0..t3 and the originator
address. -/
structure ConnectionParameters where
  k : Nat
  w : Nat
  t0 : Nat
  t1 : Nat
  t2 : Nat
  t3 : Nat
  originatorAddress : Nat
deriving DecidableEq, Repr

/-- The default connection parameters of IEC 60870-5-104:
k = 12, w = 8, t0 = 10, t1 = 15, t2 = 10, t3 = 20, originator address 0. -/
def defaultConnectionParameters : ConnectionParameters :=
  ⟨12, 8, 10, 15, 10, 20, 0⟩

/-- A created slave instance: its connection parameters and the two priority
queue capacities. -/
structure SlaveInstance where
  parameters : ConnectionParameters
  maxLowPrioQueueSize : Nat
  maxHighPrioQueueSize : Nat
deriving DecidableEq, Repr

/-- Modelled from the spec and the header contract of `T104Slave_create`:
creates a CS104 slave from the given connection parameters, or from the
default parameters when `none` (NULL) is passed. -/
def T104Slave_create (parameters : Option ConnectionParameters)
    (maxLowPrioQueueSize maxHighPrioQueueSize : Nat) : SlaveInstance :=
  { parameters := parameters.getD defaultConnectionParameters,
    maxLowPrioQueueSize := maxLowPrioQueueSize,
    maxHighPrioQueueSize := maxHighPrioQueueSize }

/-- The connection parameters of a slave, per `Slave_getConnectionParameters`. -/
def Slave_getConnectionParameters (s : SlaveInstance) : ConnectionParameters :=
  s.parameters

/-! ## Theorems -/

/-- Claim C1: at every state of the sequence window (hence at every point of
any sequence of onSend operations), if performing a send would make the
unacknowledged count exceed the configured k, `onSend` returns `WindowFull`
and leaves V(S) unchanged; otherwise it assigns the current V(S) as the
frame's sequence number and increments V(S) modulo 32768. -/
theorem onSend_windowFull_or_assigns (s : SeqWindow) :
    (s.k < s.unackedCount + 1 →
      s.onSend = .windowFull s ∧ s.onSend.window.vS = s.vS) ∧
    (s.unackedCount + 1 ≤ s.k →
      s.onSend = .ok s.vS ⟨(s.vS + 1) % seqModulus, s.vR, s.vA, s.k⟩) := by
  constructor
  · intro h
    simp [SeqWindow.onSend, h, SendResult.window]
  · intro h
    simp [SeqWindow.onSend, Nat.not_lt.mpr h]

/-- Witness for C1 at concrete windows with k = 2: one unacked frame lets the
send through and increments V(S); two unacked frames give WindowFull with
V(S) untouched. -/
theorem onSend_windowFull_or_assigns_witness :
    ((⟨1, 0, 0, 2⟩ : SeqWindow).unackedCount + 1 ≤ 2 ∧
      SeqWindow.onSend ⟨1, 0, 0, 2⟩ = .ok 1 ⟨2, 0, 0, 2⟩) ∧
    (2 < (⟨2, 0, 0, 2⟩ : SeqWindow).unackedCount + 1 ∧
      SeqWindow.onSend ⟨2, 0, 0, 2⟩ = .windowFull ⟨2, 0, 0, 2⟩) := by
  refine ⟨⟨by decide, ?_⟩, ⟨by decide, ?_⟩⟩
  · have h := (onSend_windowFull_or_assigns ⟨1, 0, 0, 2⟩).2 (by decide)
    simpa [seqModulus] using h
  · exact ((onSend_windowFull_or_assigns ⟨2, 0, 0, 2⟩).1 (by decide)).1

/-- Claim C2: an I-frame whose sequence number is not exactly the current
V(R) fails with `SequenceError`, closes the connection, leaves the sequence
window (in particular V(R)) unchanged, and dispatches no ASDU to any
application handler. -/
theorem onReceiveIFrame_sequenceError (c : Connection) (peerSeq peerAckSeq asdu : Nat)
    (h : peerSeq ≠ c.window.vR) :
    (c.onReceiveIFrame peerSeq peerAckSeq asdu).1 = some .sequenceError ∧
    (c.onReceiveIFrame peerSeq peerAckSeq asdu).2.isOpen = false ∧
    (c.onReceiveIFrame peerSeq peerAckSeq asdu).2.window = c.window ∧
    (c.onReceiveIFrame peerSeq peerAckSeq asdu).2.dispatched = c.dispatched := by
  simp [Connection.onReceiveIFrame, h]

/-- Witness for C2: an open connection with V(R) = 0 receiving an I-frame
with sequence number 5 closes with a SequenceError and dispatches nothing. -/
theorem onReceiveIFrame_sequenceError_witness :
    (5 ≠ (⟨⟨0, 0, 0, 12⟩, true, []⟩ : Connection).window.vR) ∧
    ((⟨⟨0, 0, 0, 12⟩, true, []⟩ : Connection).onReceiveIFrame 5 0 77).1 = some .sequenceError ∧
    ((⟨⟨0, 0, 0, 12⟩, true, []⟩ : Connection).onReceiveIFrame 5 0 77).2.isOpen = false ∧
    ((⟨⟨0, 0, 0, 12⟩, true, []⟩ : Connection).onReceiveIFrame 5 0 77).2.window =
      (⟨⟨0, 0, 0, 12⟩, true, []⟩ : Connection).window ∧
    ((⟨⟨0, 0, 0, 12⟩, true, []⟩ : Connection).onReceiveIFrame 5 0 77).2.dispatched =
      (⟨⟨0, 0, 0, 12⟩, true, []⟩ : Connection).dispatched :=
  ⟨by decide, onReceiveIFrame_sequenceError ⟨⟨0, 0, 0, 12⟩, true, []⟩ 5 0 77 (by decide)⟩

/-- Claim C8: `MasterConnection_sendASDU` returns true iff the connection is
active and its queue has room (the ASDU then being queued); it returns false
exactly when the queue is full or the connection is not active; in every case
the ASDU is released by the call, so the caller must not destroy or reuse
it. -/
theorem sendASDU_success_iff (c : MCState) (asdu : Nat) :
    ((MasterConnection_sendASDU c asdu).success = true ↔
      c.isActive = true ∧ c.sendQueue.length < c.sendCapacity) ∧
    ((MasterConnection_sendASDU c asdu).success = true →
      (MasterConnection_sendASDU c asdu).conn.sendQueue = c.sendQueue ++ [asdu]) ∧
    (MasterConnection_sendASDU c asdu).asduReleased = true := by
  unfold MasterConnection_sendASDU
  rcases hA : c.isActive with _ | _
  · simp [hA]
  · rcases Nat.lt_or_ge c.sendQueue.length c.sendCapacity with hq | hq
    · simp [hA, hq, Nat.not_le.mpr hq]
    · simp [hA, hq, Nat.not_lt.mpr hq]

/-- Witness for C8: an active connection with room in its queue accepts the
ASDU, appends it, and releases it. -/
theorem sendASDU_success_iff_witness :
    (MasterConnection_sendASDU ⟨true, 2, [7]⟩ 9).success = true ∧
    (MasterConnection_sendASDU ⟨true, 2, [7]⟩ 9).conn.sendQueue = [7, 9] ∧
    (MasterConnection_sendASDU ⟨true, 2, [7]⟩ 9).asduReleased = true := by
  have hs : (MasterConnection_sendASDU ⟨true, 2, [7]⟩ 9).success = true :=
    (sendASDU_success_iff ⟨true, 2, [7]⟩ 9).1.mpr (by decide)
  exact ⟨hs, (sendASDU_success_iff ⟨true, 2, [7]⟩ 9).2.1 hs,
    (sendASDU_success_iff ⟨true, 2, [7]⟩ 9).2.2⟩

/-- Claim C10: for every pair of queue sizes, creating a slave with NULL
(`none`) connection parameters yields an instance configured with the default
parameters (k, w, t0..t3), identical to one created with the defaults passed
explicitly. -/
theorem create_nullParameters_defaults (lq hq : Nat) :
    T104Slave_create none lq hq = T104Slave_create (some defaultConnectionParameters) lq hq ∧
    Slave_getConnectionParameters (T104Slave_create none lq hq) = defaultConnectionParameters := by
  exact ⟨rfl, rfl⟩

/-- Auxiliary: onSend preserves well-formedness of the sequence window. -/
theorem wf_onSend (s : SeqWindow) (h : s.WF) : s.onSend.window.WF := by
  obtain ⟨h1, h2, h3, h4⟩ := h
  unfold SeqWindow.onSend
  split
  · exact ⟨h1, h2, h3, h4⟩
  · rename_i hk
    unfold SeqWindow.WF SendResult.window
    unfold SeqWindow.unackedCount at *
    unfold seqModulus at *
    refine ⟨?_, h2, h3, ?_⟩ <;> simp <;> omega

/-- Auxiliary: onReceiveIFrame preserves well-formedness of the window. -/
theorem wf_onReceiveIFrame (c : Connection) (ps pa a : Nat) (h : c.window.WF) :
    (c.onReceiveIFrame ps pa a).2.window.WF := by
  obtain ⟨h1, h2, h3, h4⟩ := h
  unfold Connection.onReceiveIFrame
  split
  · exact ⟨h1, h2, h3, h4⟩
  · split
    · rename_i hok
      obtain ⟨hp, hle⟩ := hok
      unfold SeqWindow.WF
      unfold SeqWindow.unackedCount at *
      unfold seqModulus at *
      refine ⟨?_, ?_, ?_, ?_⟩ <;> simp <;> omega
    · exact ⟨h1, h2, h3, h4⟩

/-- Auxiliary: onReceiveSFrame preserves well-formedness of the window. -/
theorem wf_onReceiveSFrame (c : Connection) (pa : Nat) (h : c.window.WF) :
    (c.onReceiveSFrame pa).2.window.WF := by
  obtain ⟨h1, h2, h3, h4⟩ := h
  unfold Connection.onReceiveSFrame
  split
  · rename_i hok
    obtain ⟨hp, hle⟩ := hok
    unfold SeqWindow.WF
    unfold SeqWindow.unackedCount at *
    unfold seqModulus at *
    refine ⟨?_, ?_, ?_, ?_⟩ <;> simp <;> omega
  · exact ⟨h1, h2, h3, h4⟩

/-- Auxiliary: every window operation preserves well-formedness. -/
theorem wf_step (c : Connection) (op : WindowOp) (h : c.window.WF) :
    (c.step op).window.WF := by
  cases op with
  | send =>
    have hw := wf_onSend c.window h
    unfold Connection.step
    cases hs : c.window.onSend with
    | ok n w => rw [hs] at hw; simpa [hs] using hw
    | windowFull w => simpa [hs] using h
  | recvI ps pa a => exact wf_onReceiveIFrame c ps pa a h
  | recvS pa => exact wf_onReceiveSFrame c pa h

/-- Claim C5: starting from a well-formed window, after every sequence of
window operations the counters satisfy (V(S) - V(A)) mod 32768 ≤ k (the
unacknowledged window never exceeds k) and all three counters V(S), V(R),
V(A) remain reduced modulo 32768. -/
theorem window_counters_invariant (c : Connection) (ops : List WindowOp) (h : c.window.WF) :
    (c.run ops).window.vS < seqModulus ∧
    (c.run ops).window.vR < seqModulus ∧
    (c.run ops).window.vA < seqModulus ∧
    (c.run ops).window.unackedCount ≤ (c.run ops).window.k := by
  have hwf : (c.run ops).window.WF := by
    induction ops generalizing c with
    | nil => exact h
    | cons op ops ih => exact ih _ (wf_step c op h)
  exact hwf

/-- Witness for C5: a fresh window with k = 12 run through sends, a valid
S-frame acknowledgment and a valid I-frame keeps its counters in range. -/
theorem window_counters_invariant_witness :
    (⟨⟨0, 0, 0, 12⟩, true, []⟩ : Connection).window.WF ∧
    (((⟨⟨0, 0, 0, 12⟩, true, []⟩ : Connection).run
        [.send, .send, .recvS 1, .send, .recvI 0 2 9]).window.vS < seqModulus ∧
      ((⟨⟨0, 0, 0, 12⟩, true, []⟩ : Connection).run
        [.send, .send, .recvS 1, .send, .recvI 0 2 9]).window.vR < seqModulus ∧
      ((⟨⟨0, 0, 0, 12⟩, true, []⟩ : Connection).run
        [.send, .send, .recvS 1, .send, .recvI 0 2 9]).window.vA < seqModulus ∧
      ((⟨⟨0, 0, 0, 12⟩, true, []⟩ : Connection).run
        [.send, .send, .recvS 1, .send, .recvI 0 2 9]).window.unackedCount ≤
        ((⟨⟨0, 0, 0, 12⟩, true, []⟩ : Connection).run
        [.send, .send, .recvS 1, .send, .recvI 0 2 9]).window.k) :=
  ⟨by decide, window_counters_invariant ⟨⟨0, 0, 0, 12⟩, true, []⟩
    [.send, .send, .recvS 1, .send, .recvI 0 2 9] (by decide)⟩

/-- Auxiliary: draining a queue returns exactly its entries, oldest first. -/
theorem drainAll_eq_entries (cap : Nat) (l : List Nat) :
    PrioQueue.drainAll ⟨cap, l⟩ = l := by
  induction l with
  | nil => simp [PrioQueue.drainAll]
  | cons x xs ih => simpa [PrioQueue.drainAll] using ih

/-- Auxiliary: while the queue stays below capacity, enqueueAll appends. -/
theorem enqueueAll_below_capacity (xs : List Nat) (cap : Nat) (l : List Nat)
    (h : l.length + xs.length ≤ cap) :
    PrioQueue.enqueueAll ⟨cap, l⟩ xs = ⟨cap, l ++ xs⟩ := by
  induction xs generalizing l with
  | nil => simp [PrioQueue.enqueueAll]
  | cons x xs ih =>
    have hlt : l.length < cap := by simp at h; omega
    have he : PrioQueue.enqueue ⟨cap, l⟩ x = ⟨cap, l ++ [x]⟩ := by
      simp [PrioQueue.enqueue, hlt]
    show PrioQueue.enqueueAll (PrioQueue.enqueue ⟨cap, l⟩ x) xs = _
    rw [he, ih (l ++ [x]) (by simp at h ⊢; omega)]
    simp

/-- Auxiliary: a queue at capacity keeps, after enqueueAll, exactly the
newest `capacity` items: each insertion evicts the oldest entry. -/
theorem enqueueAll_at_capacity (xs : List Nat) (cap : Nat) (l : List Nat)
    (hcap : 1 ≤ cap) (h : l.length = cap) :
    PrioQueue.enqueueAll ⟨cap, l⟩ xs = ⟨cap, (l ++ xs).drop xs.length⟩ := by
  induction xs generalizing l with
  | nil => simp [PrioQueue.enqueueAll]
  | cons x xs ih =>
    have hnlt : ¬ l.length < cap := by omega
    have he : PrioQueue.enqueue ⟨cap, l⟩ x = ⟨cap, l.tail ++ [x]⟩ := by
      simp [PrioQueue.enqueue, hnlt]
    show PrioQueue.enqueueAll (PrioQueue.enqueue ⟨cap, l⟩ x) xs = _
    rw [he, ih (l.tail ++ [x]) ?_]
    · cases l with
      | nil => simp at h; omega
      | cons y l2 => simp [List.append_assoc]
    · cases l with
      | nil => simp at h; omega
      | cons y l2 => simp at h ⊢; omega

/-- Claim C4: enqueuing C+1 items into an empty queue of capacity C ≥ 1
leaves the queue at size C with the oldest entry evicted (the surviving
entries are exactly the last C items in arrival order), and draining by
repeated dequeue returns those surviving items in FIFO order. -/
theorem queue_eviction_fifo (cap : Nat) (xs : List Nat)
    (hcap : 1 ≤ cap) (hlen : xs.length = cap + 1) :
    (PrioQueue.enqueueAll ⟨cap, []⟩ xs).entries.length = cap ∧
    (PrioQueue.enqueueAll ⟨cap, []⟩ xs).entries = xs.tail ∧
    (PrioQueue.enqueueAll ⟨cap, []⟩ xs).drainAll = xs.tail := by
  have e1 : PrioQueue.enqueueAll ⟨cap, []⟩ (xs.take cap) = ⟨cap, xs.take cap⟩ := by
    have := enqueueAll_below_capacity (xs.take cap) cap [] (by simp)
    simpa using this
  have hlt : (xs.take cap).length = cap := by simp; omega
  have e2 : PrioQueue.enqueueAll ⟨cap, xs.take cap⟩ (xs.drop cap)
      = ⟨cap, ((xs.take cap) ++ xs.drop cap).drop (xs.drop cap).length⟩ :=
    enqueueAll_at_capacity (xs.drop cap) cap (xs.take cap) hcap hlt
  have e3 : PrioQueue.enqueueAll ⟨cap, []⟩ xs = ⟨cap, xs.tail⟩ := by
    conv_lhs => rw [(List.take_append_drop cap xs).symm]
    calc PrioQueue.enqueueAll ⟨cap, []⟩ (xs.take cap ++ xs.drop cap)
        = PrioQueue.enqueueAll (PrioQueue.enqueueAll ⟨cap, []⟩ (xs.take cap)) (xs.drop cap) := by
          unfold PrioQueue.enqueueAll
          exact List.foldl_append _ _ _ _
      _ = ⟨cap, ((xs.take cap) ++ xs.drop cap).drop (xs.drop cap).length⟩ := by rw [e1, e2]
      _ = ⟨cap, xs.tail⟩ := by
          rw [List.take_append_drop cap xs]
          have hd : (xs.drop cap).length = 1 := by simp; omega
          rw [hd, List.drop_one]
  refine ⟨?_, ?_, ?_⟩
  · rw [e3]; simp; omega
  · rw [e3]
  · rw [e3, drainAll_eq_entries]

/-- Witness for C4: capacity 3 with four arrivals keeps the last three, in
arrival order, both in the queue and through draining. -/
theorem queue_eviction_fifo_witness :
    1 ≤ 3 ∧ ([10, 20, 30, 40] : List Nat).length = 3 + 1 ∧
    ((PrioQueue.enqueueAll ⟨3, []⟩ [10, 20, 30, 40]).entries.length = 3 ∧
      (PrioQueue.enqueueAll ⟨3, []⟩ [10, 20, 30, 40]).entries = [10, 20, 30, 40].tail ∧
      (PrioQueue.enqueueAll ⟨3, []⟩ [10, 20, 30, 40]).drainAll = [10, 20, 30, 40].tail) :=
  ⟨by decide, by decide, queue_eviction_fifo 3 [10, 20, 30, 40] (by decide) (by decide)⟩

/-- Claim C7: when the category of an inbound ASDU has no registered handler,
dispatch reports the ASDU to the default ASDU handler; when no default
handler is registered either, the ASDU is silently acknowledged as
unprocessed and dispatch returns normally (dispatch is a total function). -/
theorem dispatch_default_fallback (r : HandlerRegistry) (typeId : Nat)
    (h : ∀ cat, classify typeId = some cat → r.handlerFor cat = none) :
    (∀ hd, r.asduHandler = some hd → dispatch r typeId = .handledByDefault hd) ∧
    (r.asduHandler = none → dispatch r typeId = .unprocessed) := by
  unfold dispatch
  cases hc : classify typeId with
  | none =>
    constructor
    · intro hd hh
      simp [hh]
    · intro hh
      simp [hh]
  | some cat =>
    have hnone := h cat hc
    constructor
    · intro hd hh
      simp [hnone, hh]
    · intro hh
      simp [hnone, hh]

/-- Witness for C7: a registry with no handlers at all leaves an
interrogation command (type 100) unprocessed, without failing. -/
theorem dispatch_default_fallback_witness :
    classify 100 = some .interrogation ∧
    HandlerRegistry.handlerFor ⟨none, none, none, none, none, none, none⟩ .interrogation = none ∧
    dispatch ⟨none, none, none, none, none, none, none⟩ 100 = .unprocessed :=
  ⟨by decide, by decide,
    (dispatch_default_fallback ⟨none, none, none, none, none, none, none⟩ 100
      (fun cat _ => by cases cat <;> rfl)).2 rfl⟩

/-- Auxiliary: the server-state invariant (no connections while stopped,
open count within the configured limit, limit within the static maximum) is
preserved by every run of server events. -/
theorem serverStep_inv (s : ServerState) (e : ServerEvent)
    (h1 : s.running = false → s.openConnections = 0)
    (h2 : s.openConnections ≤ s.maxOpenConnections)
    (h3 : s.maxOpenConnections ≤ CONFIG_CS104_MAX_CLIENT_CONNECTIONS) :
    ((serverStep s e).running = false → (serverStep s e).openConnections = 0) ∧
      (serverStep s e).openConnections ≤ (serverStep s e).maxOpenConnections ∧
      (serverStep s e).maxOpenConnections ≤ CONFIG_CS104_MAX_CLIENT_CONNECTIONS := by
  cases e with
  | setMaxOpenConnections m =>
    simp only [serverStep]
    split
    · exact ⟨h1, h2, h3⟩
    · rename_i hr
      have hrf : s.running = false := by revert hr; cases s.running <;> simp
      have h0 := h1 hrf
      refine ⟨fun _ => h0, ?_, ?_⟩
      · show s.openConnections ≤ min m CONFIG_CS104_MAX_CLIENT_CONNECTIONS
        omega
      · show min m CONFIG_CS104_MAX_CLIENT_CONNECTIONS ≤ CONFIG_CS104_MAX_CLIENT_CONNECTIONS
        omega
  | start =>
    simp only [serverStep]
    exact ⟨by simp, h2, h3⟩
  | stop =>
    simp only [serverStep]
    exact ⟨by simp, by simp, h3⟩
  | accept =>
    simp only [serverStep]
    split
    · rename_i hc
      refine ⟨fun hf => ?_, ?_, h3⟩
      · have hff : s.running = false := hf
        exact absurd hff (by simp [hc.1])
      · show s.openConnections + 1 ≤ s.maxOpenConnections
        exact hc.2
    · exact ⟨h1, h2, h3⟩
  | disconnect =>
    simp only [serverStep]
    refine ⟨?_, ?_, h3⟩
    · intro hf
      have h0 := h1 hf
      show s.openConnections - 1 = 0
      omega
    · show s.openConnections - 1 ≤ s.maxOpenConnections
      omega

/-- Auxiliary: the server-state invariant holds after every run of events. -/
theorem serverRun_inv (evs : List ServerEvent) (s : ServerState)
    (h : (s.running = false → s.openConnections = 0) ∧
      s.openConnections ≤ s.maxOpenConnections ∧
      s.maxOpenConnections ≤ CONFIG_CS104_MAX_CLIENT_CONNECTIONS) :
    ((serverRun s evs).running = false → (serverRun s evs).openConnections = 0) ∧
      (serverRun s evs).openConnections ≤ (serverRun s evs).maxOpenConnections ∧
      (serverRun s evs).maxOpenConnections ≤ CONFIG_CS104_MAX_CLIENT_CONNECTIONS := by
  induction evs generalizing s with
  | nil => exact h
  | cons e evs ih => exact ih _ (serverStep_inv s e h.1 h.2.1 h.2.2)

/-- Claim C9: after any run of server events, the effective maximum of open
client connections never exceeds the static compile-time maximum, the
reported number of open connections never exceeds the effective limit, and
requesting a larger limit (while configurable) leaves the effective limit
capped at the static maximum. -/
theorem maxOpenConnections_capped (evs : List ServerEvent) (m : Nat) :
    T104Slave_getOpenConnections (serverRun initServer evs) ≤
      (serverRun initServer evs).maxOpenConnections ∧
    (serverRun initServer evs).maxOpenConnections ≤ CONFIG_CS104_MAX_CLIENT_CONNECTIONS ∧
    ((serverRun initServer evs).running = false →
      CONFIG_CS104_MAX_CLIENT_CONNECTIONS ≤ m →
      (serverStep (serverRun initServer evs)
          (.setMaxOpenConnections m)).maxOpenConnections
        = CONFIG_CS104_MAX_CLIENT_CONNECTIONS) := by
  have h := serverRun_inv evs initServer (by refine ⟨fun _ => rfl, ?_, ?_⟩ <;> decide)
  refine ⟨h.2.1, h.2.2, ?_⟩
  intro hrf hm
  simp [serverStep, hrf, Nat.min_eq_right hm]

/-- Witness for C9: configure a limit of 3, run, stop, then request a limit
of 99; the open count stayed within the limit and the new limit is capped at
the static maximum. -/
theorem maxOpenConnections_capped_witness :
    T104Slave_getOpenConnections
        (serverRun initServer [.setMaxOpenConnections 3, .start, .accept, .stop]) ≤
      (serverRun initServer
        [.setMaxOpenConnections 3, .start, .accept, .stop]).maxOpenConnections ∧
    (serverRun initServer
        [.setMaxOpenConnections 3, .start, .accept, .stop]).maxOpenConnections ≤
      CONFIG_CS104_MAX_CLIENT_CONNECTIONS ∧
    (serverRun initServer
        [.setMaxOpenConnections 3, .start, .accept, .stop]).running = false ∧
    CONFIG_CS104_MAX_CLIENT_CONNECTIONS ≤ 99 ∧
    (serverStep (serverRun initServer [.setMaxOpenConnections 3, .start, .accept, .stop])
        (.setMaxOpenConnections 99)).maxOpenConnections
      = CONFIG_CS104_MAX_CLIENT_CONNECTIONS :=
  have h := maxOpenConnections_capped [.setMaxOpenConnections 3, .start, .accept, .stop] 99
  ⟨h.1, h.2.1, by decide, by decide, h.2.2 (by decide) (by decide)⟩

/-- Claim C3: for every valid frame (I-frame, S-frame or U-frame), decoding
the bytes produced by encoding the frame yields the original frame. -/
theorem decode_encode (f : Frame) (h : f.Valid) : decode f.encode = .ok f := by
  cases f with
  | uFrame fn => cases fn <;> decide
  | sFrame r =>
    have hr : r < seqModulus := h
    show decode [0x68, 4, 0x01, 0x00, 2 * r % 256, r / 128] = .ok (.sFrame r)
    have her : (2 * r % 256) / 2 + 128 * (r / 128) = r := by
      unfold seqModulus at hr; omega
    simp [decode, her, maxApduLength]
  | iFrame s r a =>
    obtain ⟨hs, hr, hlen⟩ := h
    show decode (0x68 :: (4 + a.length) :: (2 * s % 256) :: (s / 128) ::
        (2 * r % 256) :: (r / 128) :: a) = .ok (.iFrame s r a)
    have hes : (2 * s % 256) / 2 + 128 * (s / 128) = s := by
      unfold seqModulus at hs; omega
    have her : (2 * r % 256) / 2 + 128 * (r / 128) = r := by
      unfold seqModulus at hr; omega
    have hc0 : (2 * s % 256) % 2 = 0 := by omega
    have hl1 : ¬(maxApduLength < 4 + a.length) := by
      unfold maxApduLength at *; omega
    have hl2 : ¬((4 : Nat) + a.length < 4) := by omega
    simp [decode, hes, her, hc0, hl1, hl2]
    omega

/-- Witness for C3: a concrete valid I-frame with sequence numbers 5 and 3
and a three-byte ASDU round-trips through encode and decode. -/
theorem decode_encode_witness :
    (Frame.iFrame 5 3 [1, 2, 3]).Valid ∧
    decode (Frame.iFrame 5 3 [1, 2, 3]).encode = .ok (.iFrame 5 3 [1, 2, 3]) :=
  ⟨by decide, decode_encode (.iFrame 5 3 [1, 2, 3]) (by decide)⟩

/-- Auxiliary: a coordinator with no active connection has active count 0. -/
theorem activeCount_of_not_hasActive (c : Coordinator) (h : c.hasActive = false) :
    c.activeCount = 0 := by
  unfold Coordinator.activeCount
  rw [List.length_eq_zero, List.filter_eq_nil_iff]
  intro e he
  exact List.any_eq_false.mp h e he

/-- Auxiliary: when some connection with identifier i is active and at most
one connection is active overall, every connection other than i is passive:
the remaining registry after deregistering i holds no active entry. -/
theorem remaining_passive (c : Coordinator) (i : Nat)
    (hle : c.activeCount ≤ 1)
    (hact : c.conns.any (fun e => e.connId == i && e.isActive) = true) :
    (c.conns.filter (fun e => e.connId != i)).filter (fun e => e.isActive) = [] := by
  obtain ⟨e, he, hp⟩ := List.any_eq_true.mp hact
  simp only [Bool.and_eq_true, beq_iff_eq] at hp
  have hmem : e ∈ c.conns.filter (fun e2 => e2.isActive) :=
    List.mem_filter.mpr ⟨he, hp.2⟩
  have hlen1 : (c.conns.filter (fun e2 => e2.isActive)).length = 1 := by
    have hpos := List.length_pos.mpr (List.ne_nil_of_mem hmem)
    unfold Coordinator.activeCount at hle
    omega
  obtain ⟨x, hx⟩ := List.length_eq_one.mp hlen1
  rw [List.filter_eq_nil_iff]
  intro b hb hba
  have hb2 := List.mem_filter.mp hb
  have hbmem : b ∈ c.conns.filter (fun e2 => e2.isActive) :=
    List.mem_filter.mpr ⟨hb2.1, hba⟩
  have hex : e = x := by rw [hx] at hmem; simpa using hmem
  have hbx : b = x := by rw [hx] at hbmem; simpa using hbmem
  have hni := hb2.2
  rw [hbx, ← hex] at hni
  simp [hp.1] at hni

/-- Auxiliary: every reachable coordinator state has at most one active
connection. -/
theorem reachable_activeCount_le_one (c : Coordinator) (h : c.Reachable) :
    c.activeCount ≤ 1 := by
  induction h with
  | init => simp [Coordinator.activeCount]
  | register c i hr ih =>
    unfold Coordinator.registerConn Coordinator.activeCount
    rw [List.filter_append, List.length_append]
    cases hh : c.hasActive with
    | true =>
      unfold Coordinator.activeCount at ih
      simp [List.filter_cons]
      omega
    | false =>
      have h0 := activeCount_of_not_hasActive c hh
      unfold Coordinator.activeCount at h0
      simp [List.filter_cons, h0]
  | close c i hr ih =>
    unfold Coordinator.closeConn
    cases hact : c.conns.any (fun e => e.connId == i && e.isActive) with
    | false =>
      simp only [hact, Bool.false_eq_true, if_false]
      unfold Coordinator.activeCount at *
      have hsub : List.Sublist
          ((c.conns.filter (fun e => e.connId != i)).filter (fun e => e.isActive))
          (c.conns.filter (fun e => e.isActive)) :=
        (List.filter_sublist _).filter _
      exact le_trans hsub.length_le ih
    | true =>
      have hzero := remaining_passive c i ih hact
      simp only [hact, if_true]
      cases hrem : c.conns.filter (fun e => e.connId != i) with
      | nil => simp [Coordinator.activeCount]
      | cons x xs =>
        rw [hrem] at hzero
        rw [List.filter_cons] at hzero
        unfold Coordinator.activeCount
        cases hxa : x.isActive with
        | true => rw [hxa] at hzero; simp at hzero
        | false =>
          rw [hxa] at hzero
          simp at hzero
          simp [List.filter_cons]
          exact hzero

/-- Claim C6: in SINGLE_REDUNDANCY_GROUP mode every reachable coordinator
state has at most one active connection, and when the active connection
closes while other connections remain registered, the close step itself
elects the oldest remaining registered connection as the new (unique) active
connection. -/
theorem single_redundancy_one_active (c : Coordinator) (h : c.Reachable) :
    c.activeCount ≤ 1 ∧
    (∀ e x xs, e ∈ c.conns → e.isActive = true →
      c.conns.filter (fun e2 => e2.connId != e.connId) = x :: xs →
      (c.closeConn e.connId).conns = ⟨x.connId, true⟩ :: xs ∧
      (c.closeConn e.connId).activeCount = 1) := by
  have hle := reachable_activeCount_le_one c h
  refine ⟨hle, ?_⟩
  intro e x xs he hea hrem
  have hact : c.conns.any (fun e2 => e2.connId == e.connId && e2.isActive) = true :=
    List.any_eq_true.mpr ⟨e, he, by simp [hea]⟩
  have hzero := remaining_passive c e.connId hle hact
  rw [hrem] at hzero
  rw [List.filter_cons] at hzero
  have hres : c.closeConn e.connId = ⟨⟨x.connId, true⟩ :: xs⟩ := by
    unfold Coordinator.closeConn
    rw [hrem]
    simp only [hact, if_true]
  refine ⟨by rw [hres], ?_⟩
  rw [hres]
  unfold Coordinator.activeCount
  cases hxa : x.isActive with
  | true => rw [hxa] at hzero; simp at hzero
  | false =>
    rw [hxa] at hzero
    simp at hzero
    simp [List.filter_cons]
    exact hzero

/-- Witness for C6: two connections register (the first becomes active, the
second stays passive); closing the active one elects the second within the
close step itself. -/
theorem single_redundancy_one_active_witness :
    ((⟨[]⟩ : Coordinator).registerConn 0).registerConn 1 = ⟨[⟨0, true⟩, ⟨1, false⟩]⟩ ∧
    ((Coordinator.mk [⟨0, true⟩, ⟨1, false⟩]).closeConn 0).conns = [⟨1, true⟩] ∧
    ((Coordinator.mk [⟨0, true⟩, ⟨1, false⟩]).closeConn 0).activeCount = 1 := by
  have hr : (Coordinator.mk [⟨0, true⟩, ⟨1, false⟩]).Reachable := by
    have h2 := Coordinator.Reachable.register _ 1 (Coordinator.Reachable.register _ 0 .init)
    simpa [Coordinator.registerConn, Coordinator.hasActive] using h2
  have h := (single_redundancy_one_active _ hr).2 ⟨0, true⟩ ⟨1, false⟩ []
    (by decide) (by decide) (by decide)
  exact ⟨by decide, h.1, h.2⟩

end Lib60870
